import Mathlib

/-!  Shallow embedding of the settings / model-registry component of the
intern3-chat repository (src/convex/settings.ts together with the shared
model-catalog / provider-factory module).  JavaScript objects used as
string-keyed records are embedded as insertion-ordered association lists
with the operations jsGet / jsSet / jsDelete below.  A JavaScript object
never holds a duplicate key, so theorems about record iteration carry a
Nodup hypothesis on the keys where that matters.  The external
collaborators (key management, identity, persistence) are passed in as
explicit parameters: decryption is a function String to Except Unit String,
encryption a function String to String, the identity an Option String, and
the per-user persisted record an Option UserSettings. -/

namespace Intern3

/-- Lookup obj[k] in a JavaScript object: the first matching entry. -/
def jsGet {α : Type} : List (String × α) → String → Option α
  | [], _ => none
  | (k', v) :: rest, k => if k' = k then some v else jsGet rest k

/-- Assignment obj[k] = v: replaces the entry in place when the key exists,
otherwise appends the new entry at the end. -/
def jsSet {α : Type} : List (String × α) → String → α → List (String × α)
  | [], k, v => [(k, v)]
  | (k', v') :: rest, k, v =>
      if k' = k then (k, v) :: rest else (k', v') :: jsSet rest k v

/-- Deletion delete obj[k]: removes every entry with the key. -/
def jsDelete {α : Type} : List (String × α) → String → List (String × α)
  | [], _ => []
  | (k', v) :: rest, k =>
      if k' = k then jsDelete rest k else (k', v) :: jsDelete rest k

/-- Key-presence test (the JavaScript `in` operator). -/
def jsMem {α : Type} (m : List (String × α)) (k : String) : Bool :=
  (jsGet m k).isSome

/-- Truthiness of an optional string: undefined and the empty string are
falsy, every other string is truthy. -/
def jsTruthy : Option String → Bool
  | none => false
  | some s => s != ""

/-- Model abilities, the closed enumeration of the schema. -/
inductive ModelAbility : Type
  | reasoning
  | vision
  | function_calling
  | pdf
  | effort_control
deriving DecidableEq

/-- Model mode (text is the default in the catalog). -/
inductive ModelMode : Type
  | text
  | image
  | speechToText
deriving DecidableEq

/-- Per-user credential for a core AI provider. -/
structure ProviderCredential where
  enabled : Bool
  encryptedKey : String
deriving DecidableEq

/-- Per-user credential for a custom AI provider (adds a display name and a
base endpoint). -/
structure CustomProviderCredential where
  enabled : Bool
  endpoint : String
  name : String
  encryptedKey : String
deriving DecidableEq

/-- Per-user custom model definition. -/
structure CustomModel where
  enabled : Bool
  name : Option String := none
  modelId : String
  providerId : String
  contextLength : Nat
  maxTokens : Nat
  abilities : List ModelAbility
deriving DecidableEq

/-- Configuration of a general-purpose (search / memory) provider.  The
country / searchLang / safesearch fields are only populated for brave, the
language / country fields for serper. -/
structure GeneralProviderConfig where
  enabled : Bool
  encryptedKey : String
  country : Option String := none
  searchLang : Option String := none
  safesearch : Option String := none
  language : Option String := none
deriving DecidableEq

/-- Header entry of an MCP server. -/
structure McpHeader where
  key : String
  value : String
deriving DecidableEq

/-- Transport type of an MCP server. -/
inductive McpType : Type
  | sse
  | http
deriving DecidableEq

/-- MCP server entry of the settings record. -/
structure McpServer where
  name : String
  url : String
  type : McpType
  enabled : Option Bool := none
  headers : Option (List McpHeader) := none
deriving DecidableEq

/-- Free-text personalization fields. -/
structure Customization where
  name : Option String := none
  aiPersonality : Option String := none
  additionalContext : Option String := none
deriving DecidableEq

/-- The per-user settings record (the root aggregate persisted by the
document store). -/
structure UserSettings where
  userId : String
  searchProvider : String
  searchIncludeSourcesByDefault : Bool
  coreAIProviders : List (String × ProviderCredential)
  customAIProviders : List (String × CustomProviderCredential)
  customModels : List (String × CustomModel)
  titleGenerationModel : String
  customThemes : List String
  mcpServers : List McpServer
  generalProviders : List (String × GeneralProviderConfig)
  customization : Option Customization := none
  onboardingCompleted : Bool
deriving DecidableEq

/-- Default settings synthesized in memory when no record is persisted for
the user (DefaultSettings in src/convex/settings.ts). -/
def DefaultSettings (userId : String) : UserSettings :=
  { userId := userId
    searchProvider := "firecrawl"
    searchIncludeSourcesByDefault := false
    coreAIProviders := []
    customAIProviders := []
    customModels := []
    titleGenerationModel := "gemini-2.0-flash-lite"
    customThemes := []
    mcpServers := []
    generalProviders := []
    customization := none
    onboardingCompleted := false }

/-- Read path: the persisted record when one exists, the in-memory default
otherwise (getSettings in src/convex/settings.ts).  The per-user store is
an Option UserSettings. -/
def getSettings (store : Option UserSettings) (userId : String) : UserSettings :=
  store.getD (DefaultSettings userId)

/-- Catalog entry (SharedModel in the shared models module). -/
structure SharedModel where
  id : String
  name : String
  shortName : Option String := none
  adapters : List String
  abilities : List ModelAbility
  mode : Option ModelMode := none
  contextLength : Option Nat := none
  maxTokens : Option Nat := none
  supportedImageSizes : Option (List String) := none
  customIcon : Option String := none
  supportsDisablingReasoning : Option Bool := none
deriving DecidableEq

/-- Value of the resolved providers map of getUserRegistryInternal: the
decrypted key, an endpoint for custom providers, and a display name. -/
structure ResolvedProvider where
  key : String
  endpoint : Option String := none
  name : String
deriving DecidableEq

/-- Entry of the resolved models map of getUserRegistryInternal.  Fields a
branch leaves undefined are none. -/
structure EffectiveModel where
  id : String
  name : String
  adapters : List String
  abilities : List ModelAbility
  mode : Option ModelMode := none
  supportedImageSizes : Option (List String) := none
  contextLength : Option Nat := none
  maxTokens : Option Nat := none
  customProviderId : Option String := none
deriving DecidableEq

/-- Result record of getUserRegistryInternal. -/
structure Registry where
  providers : List (String × ResolvedProvider)
  models : List (String × EffectiveModel)
  settings : UserSettings
deriving DecidableEq

/-- Loop over the core credentials of getUserRegistryInternal: disabled
entries are skipped, enabled entries have their key decrypted (a decryption
failure is not caught and aborts the whole computation) and are written to
the providers object with the provider id as display name. -/
def buildProvidersCore (decrypt : String → Except Unit String) :
    List (String × ProviderCredential) → List (String × ResolvedProvider) →
    Except Unit (List (String × ResolvedProvider))
  | [], acc => .ok acc
  | (providerId, p) :: rest, acc =>
      if p.enabled then
        match decrypt p.encryptedKey with
        | .ok key =>
            buildProvidersCore decrypt rest
              (jsSet acc providerId { key := key, name := providerId })
        | .error e => .error e
      else buildProvidersCore decrypt rest acc

/-- Loop over the custom credentials of getUserRegistryInternal: same as
the core loop, but entries carry the stored endpoint and display name. -/
def buildProvidersCustom (decrypt : String → Except Unit String) :
    List (String × CustomProviderCredential) → List (String × ResolvedProvider) →
    Except Unit (List (String × ResolvedProvider))
  | [], acc => .ok acc
  | (providerId, p) :: rest, acc =>
      if p.enabled then
        match decrypt p.encryptedKey with
        | .ok key =>
            buildProvidersCustom decrypt rest
              (jsSet acc providerId
                { key := key, endpoint := some p.endpoint, name := p.name })
        | .error e => .error e
      else buildProvidersCustom decrypt rest acc

/-- Provider segment of an adapter string, the characters before the first
colon (adapter.split(":")[0], on the whole string when no colon occurs). -/
def providerSegment (adapter : String) : String :=
  ⟨adapter.toList.takeWhile (fun c => c != ':')⟩

/-- Internal-prefix test of the provider segment, the characters i3- at the
start of the string (provider.startsWith("i3-")). -/
def startsWithI3 (s : String) : Bool :=
  s.toList.take 3 == ['i', '3', '-']

/-- Inner loop of the catalog pass: collect, in catalog order, the adapters
whose provider segment is a key of the providers object or carries the
internal prefix. -/
def availableAdaptersLoop (providers : List (String × ResolvedProvider)) :
    List String → List String → List String
  | [], acc => acc
  | adapter :: rest, acc =>
      let provider := providerSegment adapter
      if jsMem providers provider || startsWithI3 provider then
        availableAdaptersLoop providers rest (acc ++ [adapter])
      else availableAdaptersLoop providers rest acc

/-- Adapters of a catalog model available to the user. -/
def availableAdapters (providers : List (String × ResolvedProvider))
    (adapters : List String) : List String :=
  availableAdaptersLoop providers adapters []

/-- Models-map entry emitted for a catalog model: the fields the loop body
of getUserRegistryInternal assigns, with available adapters. -/
def catalogEffective (providers : List (String × ResolvedProvider))
    (m : SharedModel) : EffectiveModel :=
  { id := m.id
    name := m.name
    adapters := availableAdapters providers m.adapters
    abilities := m.abilities
    mode := m.mode
    supportedImageSizes := m.supportedImageSizes }

/-- Catalog pass of getUserRegistryInternal: one models-map entry per
catalog model, keyed by the catalog id. -/
def buildCatalogModels (providers : List (String × ResolvedProvider)) :
    List SharedModel → List (String × EffectiveModel) →
    List (String × EffectiveModel)
  | [], models => models
  | m :: rest, models =>
      buildCatalogModels providers rest (jsSet models m.id (catalogEffective providers m))

/-- Models-map entry synthesized for an enabled custom model: a single
adapter providerId:modelId. -/
def customEffective (m : CustomModel) : EffectiveModel :=
  { id := m.modelId
    name := m.name.getD m.modelId
    adapters := [m.providerId ++ ":" ++ m.modelId]
    abilities := m.abilities
    contextLength := some m.contextLength
    maxTokens := some m.maxTokens
    customProviderId := some m.providerId }

/-- Custom-models pass of getUserRegistryInternal: disabled models are
skipped, enabled ones are written under the user-chosen map key and
override any entry already present. -/
def applyCustomModelsRegistry :
    List (String × CustomModel) → List (String × EffectiveModel) →
    List (String × EffectiveModel)
  | [], models => models
  | (modelId, m) :: rest, models =>
      if m.enabled then
        applyCustomModelsRegistry rest (jsSet models modelId (customEffective m))
      else applyCustomModelsRegistry rest models

/-- Core of getUserRegistryInternal, parameterized by the catalog it
iterates (the source iterates the static catalog MODELS_SHARED).  A
decryption failure in either credential loop aborts the whole handler. -/
def resolveRegistry (catalog : List SharedModel) (settings : UserSettings)
    (decrypt : String → Except Unit String) : Except Unit Registry :=
  match buildProvidersCore decrypt settings.coreAIProviders [] with
  | .error e => .error e
  | .ok providersCore =>
      match buildProvidersCustom decrypt settings.customAIProviders providersCore with
      | .error e => .error e
      | .ok providers =>
          .ok { providers := providers
                models := applyCustomModelsRegistry settings.customModels
                            (buildCatalogModels providers catalog [])
                settings := settings }

/-- The static model catalog (MODELS_SHARED in the shared models module). -/
def MODELS_SHARED : List SharedModel :=
  [ { id := "deepseek-v3", name := "DeepSeek V3", shortName := some "DS V3"
      adapters := ["openrouter:deepseek/deepseek-chat-v3-0324:free"]
      abilities := [.function_calling], customIcon := some "deepseek" }
  , { id := "deepseek-r1", name := "DeepSeek R1", shortName := some "DS R1"
      adapters := ["openrouter:deepseek/deepseek-r1-0528:free"]
      abilities := [.reasoning, .function_calling], customIcon := some "deepseek" }
  , { id := "gemini-2.5-flash", name := "Gemini 2.5 Flash", shortName := some "2.5 Flash"
      adapters := ["google:gemini-2.5-flash"]
      abilities := [.vision, .function_calling, .reasoning, .pdf, .effort_control]
      supportsDisablingReasoning := some true }
  , { id := "gpt-4o", name := "GPT 4o", shortName := some "4o"
      adapters := ["openai:gpt-4o", "openrouter:openai/gpt-4o"]
      abilities := [.vision, .function_calling, .pdf] }
  , { id := "gpt-4o-mini", name := "GPT 4o mini", shortName := some "4o mini"
      adapters := ["i3-openai:gpt-4o-mini", "openai:gpt-4o-mini"]
      abilities := [.vision, .function_calling, .pdf] }
  , { id := "gpt-4.1", name := "GPT 4.1"
      adapters := ["openai:gpt-4.1", "openrouter:openai/gpt-4.1"]
      abilities := [.vision, .function_calling, .pdf] }
  , { id := "gpt-4.1-mini", name := "GPT 4.1 mini", shortName := some "4.1 mini"
      adapters := ["i3-openai:gpt-4.1-mini", "openai:gpt-4.1-mini"]
      abilities := [.vision, .function_calling, .pdf] }
  , { id := "gpt-4.1-nano", name := "GPT 4.1 nano", shortName := some "4.1 nano"
      adapters := ["i3-openai:gpt-4.1-nano", "openai:gpt-4.1-nano"]
      abilities := [.vision, .function_calling, .pdf] }
  , { id := "claude-opus-4", name := "Claude Opus 4", shortName := some "Opus 4"
      adapters := ["anthropic:claude-opus-4-0", "openrouter:anthropic/claude-opus-4"]
      abilities := [.reasoning, .vision, .function_calling, .pdf, .effort_control]
      supportsDisablingReasoning := some true }
  , { id := "claude-sonnet-4", name := "Claude Sonnet 4", shortName := some "Sonnet 4"
      adapters := ["anthropic:claude-sonnet-4-0", "openrouter:anthropic/claude-sonnet-4"]
      abilities := [.reasoning, .vision, .function_calling, .pdf, .effort_control]
      supportsDisablingReasoning := some true }
  , { id := "claude-3-7-sonnet", name := "Claude 3.7 Sonnet", shortName := some "3.7 Sonnet"
      adapters := ["anthropic:claude-3-7-sonnet", "openrouter:anthropic/claude-3.7-sonnet"]
      abilities := [.reasoning, .vision, .function_calling, .pdf, .effort_control]
      supportsDisablingReasoning := some true }
  , { id := "gemini-2.5-flash-lite", name := "Gemini 2.5 Flash Lite"
      shortName := some "2.5 Flash Lite"
      adapters := ["i3-google:gemini-2.5-flash-lite-preview-06-17",
                   "google:gemini-2.5-flash-lite-preview-06-17"]
      abilities := [.vision, .function_calling, .reasoning, .pdf, .effort_control]
      supportsDisablingReasoning := some true }
  , { id := "gemini-2.0-flash", name := "Gemini 2.0 Flash", shortName := some "2.0 Flash"
      adapters := ["i3-google:gemini-2.0-flash", "google:gemini-2.0-flash",
                   "openrouter:google/gemini-2.0-flash-001"]
      abilities := [.vision, .function_calling, .pdf] }
  , { id := "gemini-2.0-flash-lite", name := "Gemini 2.0 Flash Lite"
      shortName := some "2.0 Flash Lite"
      adapters := ["i3-google:gemini-2.0-flash-lite", "google:gemini-2.0-flash-lite"]
      abilities := [.vision, .function_calling, .pdf] }
  , { id := "gemini-2.0-flash-image-generation", name := "Gemini 2.0 Flash Imagen"
      shortName := some "2.0 Flash Imagen"
      adapters := ["i3-google:gemini-2.0-flash-exp", "google:gemini-2.0-flash-exp"]
      abilities := [.vision] }
  , { id := "sdxl-lightning", name := "SDXL Lightning", shortName := some "SDXL"
      adapters := ["fal:fal-ai/fast-lightning-sdxl"], abilities := []
      mode := some .image, customIcon := some "stability-ai"
      supportedImageSizes := some ["1:1", "1:1-hd", "3:4", "4:3", "9:16", "16:9"] }
  , { id := "flux-schnell", name := "FLUX.1 [schnell]", shortName := some "flux.schnell"
      adapters := ["fal:fal-ai/flux/schnell"], abilities := []
      mode := some .image, customIcon := some "bflabs"
      supportedImageSizes := some ["1:1", "1:1-hd", "3:4", "4:3", "9:16", "16:9"] }
  , { id := "flux-dev", name := "FLUX.1 [dev]", shortName := some "flux.dev"
      adapters := ["fal:fal-ai/flux/dev"], abilities := []
      mode := some .image, customIcon := some "bflabs"
      supportedImageSizes := some ["1:1", "1:1-hd", "3:4", "4:3", "9:16", "16:9"] }
  , { id := "google-imagen-4", name := "Google Imagen 4", shortName := some "Imagen 4"
      adapters := ["fal:fal-ai/imagen4/preview"], abilities := []
      mode := some .image, customIcon := some "google"
      supportedImageSizes := some ["1:1-hd", "16:9-hd", "9:16-hd", "3:4-hd", "4:3-hd"] }
  , { id := "llama-4-scout-17b-16e-instruct", name := "Llama 4 Scout 17B 16E"
      shortName := some "Llama 4 Scout 17B"
      adapters := ["groq:meta-llama/llama-4-scout-17b-16e-instruct"]
      abilities := [.vision], customIcon := some "meta" }
  , { id := "llama-4-maverick-17b-128e-instruct", name := "Llama 4 Maverick 17B 128E Instruct"
      shortName := some "Llama 4 Maverick 17B"
      adapters := ["groq:meta-llama/llama-4-maverick-17b-128e-instruct"]
      abilities := [.vision], customIcon := some "meta" }
  , { id := "llama-3-1-8b-instant", name := "Llama 3.1 8B Instant"
      shortName := some "Llama 3.1 8B"
      adapters := ["i3-groq:llama-3.1-8b-instant", "groq:llama-3.1-8b-instant"]
      abilities := [], customIcon := some "meta" }
  , { id := "whisper-large-v3-turbo", name := "Whisper Large v3 Turbo"
      adapters := ["groq:whisper-large-v3-turbo"], abilities := []
      mode := some .speechToText } ]

/-- Entry point of the internal registry query: resolves the static catalog
against the user's settings snapshot. -/
def getUserRegistryInternal (store : Option UserSettings) (userId : String)
    (decrypt : String → Except Unit String) : Except Unit Registry :=
  resolveRegistry MODELS_SHARED (getSettings store userId) decrypt

/-- Internal query getSupermemoryKey: null when the supermemory provider is
absent, disabled or has an empty stored ciphertext; otherwise the decrypted
key, with a decryption failure caught and converted to null. -/
def getSupermemoryKey (store : Option UserSettings) (userId : String)
    (decrypt : String → Except Unit String) : Option String :=
  let settings := getSettings store userId
  match jsGet settings.generalProviders "supermemory" with
  | none => none
  | some cfg =>
      if !cfg.enabled || cfg.encryptedKey == "" then none
      else
        match decrypt cfg.encryptedKey with
        | .ok key => some key
        | .error _ => none

/-- Internal query getDecryptedGeneralProviderKey: same shape as the
supermemory query for an arbitrary general-provider id. -/
def getDecryptedGeneralProviderKey (store : Option UserSettings)
    (providerId : String) (userId : String)
    (decrypt : String → Except Unit String) : Option String :=
  let settings := getSettings store userId
  match jsGet settings.generalProviders providerId with
  | none => none
  | some cfg =>
      if !cfg.enabled || cfg.encryptedKey == "" then none
      else
        match decrypt cfg.encryptedKey with
        | .ok key => some key
        | .error _ => none

/-- Process-wide configuration consulted by the provider factory: the
internal API key environment variables, each possibly unset. -/
structure Env where
  openaiApiKey : Option String := none
  anthropicApiKey : Option String := none
  googleApiKey : Option String := none
  groqApiKey : Option String := none
  falApiKey : Option String := none
deriving DecidableEq

/-- Stateless client wrapper returned by the provider factory: the provider
it targets and the key it was configured with (none when the internal
environment variable is unset). -/
structure ProviderClient where
  provider : String
  apiKey : Option String
  compat : Option String := none
deriving DecidableEq

/-- Errors of the provider factory. -/
inductive CreateProviderError : Type
  | configurationError
  | unknownProvider (providerId : String)
deriving DecidableEq

/-- Key resolution of the factory branches: the sentinel reads the
environment variable, anything else is used verbatim. -/
def resolveFactoryKey (apiKey : String) (envKey : Option String) : Option String :=
  if apiKey = "internal" then envKey else some apiKey

/-- Blankness test of the factory guard: apiKey.trim() yields the empty
string exactly when every character is whitespace. -/
def isBlank (s : String) : Bool :=
  s.toList.all (fun c => c.isWhitespace)

/-- The provider factory createProvider: rejects a blank non-internal key,
then constructs a client for the recognized provider ids (the openrouter
branch passes the raw key through, internal sentinel included); an
unrecognized id reaches the default branch and fails. -/
def createProvider (providerId : String) (apiKey : String) (env : Env) :
    Except CreateProviderError ProviderClient :=
  if apiKey ≠ "internal" ∧ (apiKey = "" ∨ isBlank apiKey = true) then
    .error .configurationError
  else if providerId = "openai" then
    .ok { provider := "openai", apiKey := resolveFactoryKey apiKey env.openaiApiKey
          compat := some "strict" }
  else if providerId = "anthropic" then
    .ok { provider := "anthropic", apiKey := resolveFactoryKey apiKey env.anthropicApiKey }
  else if providerId = "google" then
    .ok { provider := "google", apiKey := resolveFactoryKey apiKey env.googleApiKey }
  else if providerId = "groq" then
    .ok { provider := "groq", apiKey := resolveFactoryKey apiKey env.groqApiKey }
  else if providerId = "openrouter" then
    .ok { provider := "openrouter", apiKey := some apiKey }
  else if providerId = "fal" then
    .ok { provider := "fal", apiKey := resolveFactoryKey apiKey env.falApiKey }
  else .error (.unknownProvider providerId)

/-- The closed set of provider ids the factory recognizes. -/
def recognizedProviders : List String :=
  ["openai", "anthropic", "google", "groq", "openrouter", "fal"]

/-- Errors thrown by the settings mutations: the unauthorized ChatError /
Error, the theme-cap Error of addUserTheme, and the runtime TypeError of a
field access on an undefined object. -/
inductive MutErr : Type
  | unauthorized
  | maxThemes
  | typeErrorUndefined
deriving DecidableEq

/-- Store contents after a mutation result: the new store on success, the
untouched old store when the mutation threw. -/
def storeAfter (store : Option UserSettings)
    (r : Except MutErr (Option UserSettings)) : Option UserSettings :=
  match r with
  | .ok store' => store'
  | .error _ => store

/-- Core-provider entry of an update request. -/
structure CoreProviderArg where
  enabled : Bool
  newKey : Option String := none
deriving DecidableEq

/-- Custom-provider entry of an update request. -/
structure CustomProviderArg where
  name : String
  enabled : Bool
  endpoint : String
  newKey : Option String := none
deriving DecidableEq

/-- General-provider entry of an update request; the trailing optional
fields only arrive for brave (country, searchLang, safesearch) and serper
(language, country). -/
structure GeneralProviderArg where
  enabled : Bool
  newKey : Option String := none
  country : Option String := none
  searchLang : Option String := none
  safesearch : Option String := none
  language : Option String := none
deriving DecidableEq

/-- Generic iteration over the entries of a request record, writing
f k u under each key (the upsert-only loops of both update handlers). -/
def applyRecordUpdates {α β : Type} (f : String → α → β)
    (acc : List (String × β)) : List (String × α) → List (String × β)
  | [] => acc
  | (k, u) :: rest => applyRecordUpdates f (jsSet acc k (f k u)) rest

/-- Generic iteration over the entries of a nullable request record: a null
value deletes the key, a present value upserts f k u (the loops of the
partial update that support the null-means-delete sentinel). -/
def applyUpserts {α β : Type} (f : String → α → β)
    (acc : List (String × β)) : List (String × Option α) → List (String × β)
  | [] => acc
  | (k, none) :: rest => applyUpserts f (jsDelete acc k) rest
  | (k, some u) :: rest => applyUpserts f (jsSet acc k (f k u)) rest

/-- Body of the core-provider loops of updateUserSettings and of the
partial update (the two source loops carry the same expression): a truthy
newKey is encrypted, otherwise the stored ciphertext of that provider id is
carried forward with an optional chain falling back to the empty string. -/
def coreStep (settings : UserSettings) (encrypt : String → String)
    (providerId : String) (u : CoreProviderArg) : ProviderCredential :=
  { enabled := u.enabled
    encryptedKey :=
      if jsTruthy u.newKey then encrypt (u.newKey.getD "")
      else ((jsGet settings.coreAIProviders providerId).map
              (fun c => c.encryptedKey)).getD "" }

/-- Body of the custom-provider loop of the partial update: like the core
step but with the optional chain on the stored custom credential. -/
def customStepPartial (settings : UserSettings) (encrypt : String → String)
    (providerId : String) (u : CustomProviderArg) : CustomProviderCredential :=
  { name := u.name
    enabled := u.enabled
    endpoint := u.endpoint
    encryptedKey :=
      if jsTruthy u.newKey then encrypt (u.newKey.getD "")
      else ((jsGet settings.customAIProviders providerId).map
              (fun c => c.encryptedKey)).getD "" }

/-- Key stored by one step of the custom-provider loop of the full update.
The source reads settings.customAIProviders[providerId].encryptedKey
without optional chaining, so when no truthy key is supplied and the
provider id is absent from the stored map, the field access is performed on
undefined and throws a TypeError. -/
def fullCustomKey (settings : UserSettings) (encrypt : String → String)
    (providerId : String) (u : CustomProviderArg) : Except MutErr String :=
  if jsTruthy u.newKey then .ok (encrypt (u.newKey.getD ""))
  else
    match jsGet settings.customAIProviders providerId with
    | some c => .ok c.encryptedKey
    | none => .error .typeErrorUndefined

/-- Custom-provider loop of the full update: each request entry is written
under its provider id with the key computed by fullCustomKey; a TypeError
aborts the whole handler before any write. -/
def applyFullCustom (settings : UserSettings) (encrypt : String → String)
    (acc : List (String × CustomProviderCredential)) :
    List (String × CustomProviderArg) →
    Except MutErr (List (String × CustomProviderCredential))
  | [] => .ok acc
  | (providerId, u) :: rest =>
      match fullCustomKey settings encrypt providerId u with
      | .error e => .error e
      | .ok key =>
          applyFullCustom settings encrypt
            (jsSet acc providerId
              { name := u.name, enabled := u.enabled, endpoint := u.endpoint
                encryptedKey := key }) rest

/-- Body shared by the general-provider loops of both update handlers:
brave and serper carry their extra fields, every other id stores only the
enabled flag and key, and the stored ciphertext of that id is carried
forward when no truthy new key arrives. -/
def applyGeneralUpdates (settings : UserSettings) (encrypt : String → String)
    (acc : List (String × GeneralProviderConfig)) :
    List (String × GeneralProviderArg) → List (String × GeneralProviderConfig)
  | [] => acc
  | (providerId, u) :: rest =>
      let existingKey :=
        ((jsGet settings.generalProviders providerId).map
          (fun c => c.encryptedKey)).getD ""
      let key := if jsTruthy u.newKey then encrypt (u.newKey.getD "") else existingKey
      let cfg : GeneralProviderConfig :=
        if providerId = "brave" then
          { enabled := u.enabled, encryptedKey := key
            country := u.country, searchLang := u.searchLang
            safesearch := u.safesearch }
        else if providerId = "serper" then
          { enabled := u.enabled, encryptedKey := key
            language := u.language, country := u.country }
        else { enabled := u.enabled, encryptedKey := key }
      applyGeneralUpdates settings encrypt (jsSet acc providerId cfg) rest

/-- Record argument generalProviders of the full update: one optional entry
per fixed general-provider id. -/
structure GeneralArgs where
  supermemory : Option GeneralProviderArg := none
  firecrawl : Option GeneralProviderArg := none
  tavily : Option GeneralProviderArg := none
  brave : Option GeneralProviderArg := none
  serper : Option GeneralProviderArg := none
deriving DecidableEq

/-- Entries of the generalProviders argument in declaration order, skipping
the absent ones (the handler skips falsy providerData). -/
def generalArgsEntries (g : GeneralArgs) : List (String × GeneralProviderArg) :=
  ([("supermemory", g.supermemory), ("firecrawl", g.firecrawl),
    ("tavily", g.tavily), ("brave", g.brave), ("serper", g.serper)]).filterMap
    (fun p => p.2.map (fun u => (p.1, u)))

/-- Initial generalProviders object of the full update: the five stored
entries copied over (absent ones stay absent). -/
def initGeneral (gp : List (String × GeneralProviderConfig)) :
    List (String × GeneralProviderConfig) :=
  (["supermemory", "firecrawl", "tavily", "brave", "serper"]).filterMap
    (fun k => (jsGet gp k).map (fun c => (k, c)))

/-- Modelled from the spec: the NonSensitiveUserSettings validator lives in
src/convex/schema/settings.ts, which is not among the provided sources; per
spec section 3 it carries the UserSettings fields other than the credential
maps and the general-provider configurations. -/
structure BaseSettings where
  userId : String
  searchProvider : String
  searchIncludeSourcesByDefault : Bool
  customModels : List (String × CustomModel)
  titleGenerationModel : String
  customThemes : List String
  mcpServers : List McpServer
  customization : Option Customization := none
  onboardingCompleted : Bool
deriving DecidableEq

/-- Spread of the base settings with the three rebuilt maps, forming the
record the full update persists. -/
def baseToSettings (b : BaseSettings)
    (core : List (String × ProviderCredential))
    (custom : List (String × CustomProviderCredential))
    (general : List (String × GeneralProviderConfig)) : UserSettings :=
  { userId := b.userId
    searchProvider := b.searchProvider
    searchIncludeSourcesByDefault := b.searchIncludeSourcesByDefault
    coreAIProviders := core
    customAIProviders := custom
    customModels := b.customModels
    titleGenerationModel := b.titleGenerationModel
    customThemes := b.customThemes
    mcpServers := b.mcpServers
    generalProviders := general
    customization := b.customization
    onboardingCompleted := b.onboardingCompleted }

/-- Argument record of the full update updateUserSettings. -/
structure UpdateArgs where
  userId : String
  baseSettings : BaseSettings
  coreProviders : List (String × CoreProviderArg)
  customProviders : List (String × CustomProviderArg)
  generalProviders : Option GeneralArgs := none
  supermemory : Option CoreProviderArg := none
  mcpServers : Option (List McpServer) := none
deriving DecidableEq

/-- Full update handler updateUserSettings: rejects a missing identity and
an identity that differs from the target userId; rebuilds the core and
custom provider maps from the request (carrying stored ciphertexts forward
when no truthy new key arrives), copies the stored general providers and
applies the general / supermemory deltas, and persists the result.  The
custom-provider loop can throw the runtime TypeError, in which case nothing
is written. -/
def updateUserSettings (identity : Option String)
    (store : Option UserSettings) (encrypt : String → String)
    (args : UpdateArgs) : Except MutErr (Option UserSettings) :=
  match identity with
  | none => .error .unauthorized
  | some uid =>
      if uid ≠ args.userId then .error .unauthorized
      else
        let settings := getSettings store args.userId
        let core := applyRecordUpdates (coreStep settings encrypt) [] args.coreProviders
        match applyFullCustom settings encrypt [] args.customProviders with
        | .error e => .error e
        | .ok custom =>
            let general0 := initGeneral settings.generalProviders
            let general1 :=
              match args.generalProviders with
              | none => general0
              | some g => applyGeneralUpdates settings encrypt general0 (generalArgsEntries g)
            let general2 :=
              match args.supermemory with
              | none => general1
              | some sm =>
                  jsSet general1 "supermemory"
                    { enabled := sm.enabled
                      encryptedKey :=
                        if jsTruthy sm.newKey then encrypt (sm.newKey.getD "")
                        else ((jsGet settings.generalProviders "supermemory").map
                                (fun c => c.encryptedKey)).getD "" }
            .ok (some (baseToSettings args.baseSettings core custom general2))

/-- Mutation addUserTheme: a duplicate URL returns early without a write; a
sixth distinct URL throws the maximum-themes error; otherwise the URL is
appended and the record persisted. -/
def addUserTheme (identity : Option String) (store : Option UserSettings)
    (url : String) : Except MutErr (Option UserSettings) :=
  match identity with
  | none => .error .unauthorized
  | some uid =>
      let settings := getSettings store uid
      let existingThemes := settings.customThemes
      if url ∈ existingThemes then .ok store
      else if 5 ≤ existingThemes.length then .error .maxThemes
      else .ok (some { settings with customThemes := existingThemes ++ [url] })

/-- Mutation deleteUserTheme: filters the URL out and persists. -/
def deleteUserTheme (identity : Option String) (store : Option UserSettings)
    (url : String) : Except MutErr (Option UserSettings) :=
  match identity with
  | none => .error .unauthorized
  | some uid =>
      let settings := getSettings store uid
      .ok (some { settings with
                  customThemes := settings.customThemes.filter (fun t => t != url) })

/-- Spread merge of the customization fields (object spread of the stored
value then the request value). -/
def mergeCustomization (old : Option Customization) (c : Customization) :
    Customization :=
  { name := match c.name with
      | some v => some v
      | none => old.bind (fun o => o.name)
    aiPersonality := match c.aiPersonality with
      | some v => some v
      | none => old.bind (fun o => o.aiPersonality)
    additionalContext := match c.additionalContext with
      | some v => some v
      | none => old.bind (fun o => o.additionalContext) }

/-- Argument record of the partial update. -/
structure PartialArgs where
  searchProvider : Option String := none
  searchIncludeSourcesByDefault : Option Bool := none
  titleGenerationModel : Option String := none
  customization : Option Customization := none
  coreProviderUpdates : Option (List (String × CoreProviderArg)) := none
  customProviderUpdates : Option (List (String × Option CustomProviderArg)) := none
  generalProviderUpdates : Option (List (String × GeneralProviderArg)) := none
  customModelUpdates : Option (List (String × Option CustomModel)) := none
  mcpServers : Option (List McpServer) := none
  addTheme : Option String := none
  removeTheme : Option String := none
deriving DecidableEq

/-- Partial update handler (updateUserSettingsPartial in the source):
rejects a missing identity, applies only the request fields that are
present (null map values delete their key), applies the capped idempotent
theme add and the theme removal, and persists the result. -/
def updateUserSettingsPartialFn (identity : Option String)
    (store : Option UserSettings) (encrypt : String → String)
    (args : PartialArgs) : Except MutErr (Option UserSettings) :=
  match identity with
  | none => .error .unauthorized
  | some uid =>
      let settings := getSettings store uid
      let s1 : UserSettings :=
        { settings with
          searchProvider := args.searchProvider.getD settings.searchProvider
          searchIncludeSourcesByDefault :=
            args.searchIncludeSourcesByDefault.getD settings.searchIncludeSourcesByDefault
          titleGenerationModel :=
            args.titleGenerationModel.getD settings.titleGenerationModel
          customization :=
            match args.customization with
            | none => settings.customization
            | some c => some (mergeCustomization settings.customization c) }
      let s2 : UserSettings :=
        { s1 with coreAIProviders :=
            match args.coreProviderUpdates with
            | none => s1.coreAIProviders
            | some us => applyRecordUpdates (coreStep settings encrypt) s1.coreAIProviders us }
      let s3 : UserSettings :=
        { s2 with customAIProviders :=
            match args.customProviderUpdates with
            | none => s2.customAIProviders
            | some us => applyUpserts (customStepPartial settings encrypt) s2.customAIProviders us }
      let s4 : UserSettings :=
        { s3 with generalProviders :=
            match args.generalProviderUpdates with
            | none => s3.generalProviders
            | some us => applyGeneralUpdates settings encrypt s3.generalProviders us }
      let s5 : UserSettings :=
        { s4 with customModels :=
            match args.customModelUpdates with
            | none => s4.customModels
            | some us => applyUpserts (fun _ u => u) s4.customModels us }
      let s6 : UserSettings := { s5 with mcpServers := args.mcpServers.getD s5.mcpServers }
      let s7 : UserSettings :=
        { s6 with customThemes :=
            if jsTruthy args.addTheme
               ∧ args.addTheme.getD "" ∉ s6.customThemes
               ∧ s6.customThemes.length < 5
            then s6.customThemes ++ [args.addTheme.getD ""]
            else s6.customThemes }
      let s8 : UserSettings :=
        { s7 with customThemes :=
            if jsTruthy args.removeTheme
            then s7.customThemes.filter (fun t => t != args.removeTheme.getD "")
            else s7.customThemes }
      .ok (some s8)

/-- Decryption collaborator that always succeeds, returning the ciphertext
itself (used to instantiate the theorems on concrete inputs). -/
def decryptOk : String → Except Unit String := fun s => .ok s

/-- Decryption collaborator that always fails. -/
def decryptFailAll : String → Except Unit String := fun _ => .error ()

/-- Encryption collaborator used on concrete inputs. -/
def exEncrypt : String → String := fun s => "enc:" ++ s

/-- Environment with every internal key variable unset. -/
def envEmpty : Env := {}

/-- Key-set characterization used by the resolver theorems: a provider id
is enabled exactly when some stored core or custom credential under that id
has the enabled flag set. -/
def enabledKeyB (settings : UserSettings) (k : String) : Bool :=
  settings.coreAIProviders.any (fun p => p.1 == k && p.2.enabled)
  || settings.customAIProviders.any (fun p => p.1 == k && p.2.enabled)

/-- Base-settings payload used on concrete inputs. -/
def exBase : BaseSettings :=
  { userId := "u"
    searchProvider := "firecrawl"
    searchIncludeSourcesByDefault := false
    customModels := []
    titleGenerationModel := "gemini-2.0-flash-lite"
    customThemes := []
    mcpServers := []
    customization := none
    onboardingCompleted := false }

/-- Stored record used by the C5 theorem: no custom provider is stored. -/
def exStoreC5 : Option UserSettings := some (DefaultSettings "u")

/-- Full-update request naming a custom provider id that is not stored and
supplying no new key. -/
def exArgsC5custom : UpdateArgs :=
  { userId := "u"
    baseSettings := exBase
    coreProviders := []
    customProviders := [("p", { name := "P", enabled := true, endpoint := "https://e" })] }

/-- The analogous full-update request for a core provider id. -/
def exArgsC5core : UpdateArgs :=
  { userId := "u"
    baseSettings := exBase
    coreProviders := [("p", { enabled := true })]
    customProviders := [] }

/-- Settings snapshot with one enabled core credential, used to exercise
the registry resolution against a failing decryption collaborator. -/
def exSettingsC2 : UserSettings :=
  { DefaultSettings "u" with
    coreAIProviders := [("openai", { enabled := true, encryptedKey := "CT" })] }

/-- Settings snapshot already holding five theme URLs. -/
def exSettingsC1 : UserSettings :=
  { DefaultSettings "u" with customThemes := ["t1", "t2", "t3", "t4", "t5"] }

/-- Stored record used by the C8 witness: one custom provider and one
custom model are persisted. -/
def exStoreC8 : Option UserSettings :=
  some { DefaultSettings "u" with
         customAIProviders :=
           [("cp", { enabled := true, endpoint := "https://e", name := "CP"
                     encryptedKey := "CT" })]
         customModels :=
           [("cm", { enabled := true, modelId := "mid", providerId := "cp"
                     contextLength := 8, maxTokens := 4, abilities := [] })] }

/-- Partial-update request deleting both stored entries via the null
sentinel. -/
def exArgsC8 : PartialArgs :=
  { customProviderUpdates := some [("cp", none)]
    customModelUpdates := some [("cm", none)] }

/-- Stored record holding a core credential with ciphertext OLD. -/
def exStoreC4 : Option UserSettings :=
  some { DefaultSettings "u" with
         coreAIProviders := [("openai", { enabled := true, encryptedKey := "OLD" })] }

/-- Full-update request supplying an empty-string newKey for that core
provider. -/
def exArgsC4 : UpdateArgs :=
  { userId := "u"
    baseSettings := exBase
    coreProviders := [("openai", { enabled := true, newKey := some "" })]
    customProviders := [] }

/-- Stored record for the C4 witness: both a core and a custom credential
are persisted with known ciphertexts. -/
def exStoreC4w : Option UserSettings :=
  some { DefaultSettings "u" with
         coreAIProviders := [("openai", { enabled := false, encryptedKey := "COLD" })]
         customAIProviders :=
           [("cp", { enabled := true, endpoint := "https://old", name := "CP"
                     encryptedKey := "XOLD" })] }

/-- Full-update request that re-sends both providers without any newKey. -/
def exArgsC4w : UpdateArgs :=
  { userId := "u"
    baseSettings := exBase
    coreProviders := [("openai", { enabled := true })]
    customProviders :=
      [("cp", { name := "CP2", enabled := false, endpoint := "https://new" })] }

/-- Catalog model used on concrete inputs (the gpt-4o example of the
specification). -/
def exModelGpt4o : SharedModel :=
  { id := "gpt-4o", name := "GPT 4o"
    adapters := ["openai:gpt-4o", "openrouter:openai/gpt-4o"]
    abilities := [] }

/-- One-model catalog for the resolver witnesses. -/
def exCatalogGpt4o : List SharedModel := [exModelGpt4o]

/-- Settings with the openai credential enabled, openrouter absent. -/
def exSettingsC3 : UserSettings :=
  { DefaultSettings "u" with
    coreAIProviders := [("openai", { enabled := true, encryptedKey := "X" })] }

/-- Settings for the C6 witness: one enabled and one disabled custom
model. -/
def exSettingsC6 : UserSettings :=
  { DefaultSettings "u" with
    customModels :=
      [("mycm", { enabled := true, modelId := "mid", providerId := "cp"
                  contextLength := 8, maxTokens := 4, abilities := [] }),
       ("dead", { enabled := false, modelId := "dm", providerId := "cp"
                  contextLength := 8, maxTokens := 4, abilities := [] })] }

theorem jsGet_jsSet_self {α : Type} (m : List (String × α)) (k : String) (v : α) :
    jsGet (jsSet m k v) k = some v := by
  induction m with
  | nil => simp [jsSet, jsGet]
  | cons p rest ih =>
      obtain ⟨k', v'⟩ := p
      by_cases h : k' = k
      · simp [jsSet, h, jsGet]
      · simp [jsSet, h, jsGet, ih]

theorem jsGet_jsSet_ne {α : Type} (m : List (String × α)) (ks kl : String) (v : α)
    (h : ks ≠ kl) : jsGet (jsSet m ks v) kl = jsGet m kl := by
  induction m with
  | nil => simp [jsSet, jsGet, h]
  | cons p rest ih =>
      obtain ⟨k', v'⟩ := p
      by_cases h' : k' = ks
      · subst h'
        simp only [jsSet, if_pos rfl, jsGet]
        rw [if_neg h, if_neg h]
      · simp only [jsSet, if_neg h', jsGet]
        by_cases h'' : k' = kl
        · rw [if_pos h'', if_pos h'']
        · rw [if_neg h'', if_neg h'', ih]

theorem jsGet_jsDelete_self {α : Type} (m : List (String × α)) (k : String) :
    jsGet (jsDelete m k) k = none := by
  induction m with
  | nil => simp [jsDelete, jsGet]
  | cons p rest ih =>
      obtain ⟨k', v'⟩ := p
      by_cases h : k' = k <;> simp [jsDelete, h, jsGet, ih]

theorem jsGet_jsDelete_ne {α : Type} (m : List (String × α)) (ks kl : String)
    (h : ks ≠ kl) : jsGet (jsDelete m ks) kl = jsGet m kl := by
  induction m with
  | nil => simp [jsDelete]
  | cons p rest ih =>
      obtain ⟨k', v'⟩ := p
      by_cases h' : k' = ks
      · subst h'
        simp [jsDelete, jsGet, h, ih]
      · simp only [jsDelete, if_neg h', jsGet]
        by_cases h'' : k' = kl
        · rw [if_pos h'', if_pos h'']
        · rw [if_neg h'', if_neg h'', ih]

theorem jsMem_jsSet {α : Type} (m : List (String × α)) (ks kl : String) (v : α) :
    jsMem (jsSet m ks v) kl = if ks = kl then true else jsMem m kl := by
  by_cases h : ks = kl
  · subst h; simp [jsMem, jsGet_jsSet_self]
  · simp [jsMem, jsGet_jsSet_ne m ks kl v h, h]

theorem applyRecordUpdates_preserve {α β : Type} (f : String → α → β)
    (us : List (String × α)) (acc : List (String × β)) (k : String)
    (h : k ∉ us.map Prod.fst) :
    jsGet (applyRecordUpdates f acc us) k = jsGet acc k := by
  induction us generalizing acc with
  | nil => simp [applyRecordUpdates]
  | cons p rest ih =>
      obtain ⟨k0, u0⟩ := p
      simp only [List.map_cons, List.mem_cons] at h
      push_neg at h
      simp only [applyRecordUpdates]
      rw [ih _ h.2, jsGet_jsSet_ne _ _ _ _ (fun e => h.1 e.symm)]

theorem applyRecordUpdates_lookup {α β : Type} (f : String → α → β)
    (us : List (String × α)) (acc : List (String × β)) (k : String) (u : α)
    (hnodup : (us.map Prod.fst).Nodup) (h : jsGet us k = some u) :
    jsGet (applyRecordUpdates f acc us) k = some (f k u) := by
  induction us generalizing acc with
  | nil => simp [jsGet] at h
  | cons p rest ih =>
      obtain ⟨k0, u0⟩ := p
      simp only [List.map_cons, List.nodup_cons] at hnodup
      by_cases hk : k0 = k
      · subst hk
        simp [jsGet] at h
        subst h
        simp only [applyRecordUpdates]
        rw [applyRecordUpdates_preserve _ _ _ _ hnodup.1, jsGet_jsSet_self]
      · simp only [jsGet, if_neg hk] at h
        simp only [applyRecordUpdates]
        exact ih _ hnodup.2 h

theorem applyUpserts_preserve {α β : Type} (f : String → α → β)
    (us : List (String × Option α)) (acc : List (String × β)) (k : String)
    (h : k ∉ us.map Prod.fst) :
    jsGet (applyUpserts f acc us) k = jsGet acc k := by
  induction us generalizing acc with
  | nil => simp [applyUpserts]
  | cons p rest ih =>
      obtain ⟨k0, u0⟩ := p
      simp only [List.map_cons, List.mem_cons] at h
      push_neg at h
      cases u0 with
      | none =>
          simp only [applyUpserts]
          rw [ih _ h.2, jsGet_jsDelete_ne _ _ _ (fun e => h.1 e.symm)]
      | some u =>
          simp only [applyUpserts]
          rw [ih _ h.2, jsGet_jsSet_ne _ _ _ _ (fun e => h.1 e.symm)]

theorem applyUpserts_del {α β : Type} (f : String → α → β)
    (us : List (String × Option α)) (acc : List (String × β)) (k : String)
    (hnodup : (us.map Prod.fst).Nodup) (h : jsGet us k = some none) :
    jsGet (applyUpserts f acc us) k = none := by
  induction us generalizing acc with
  | nil => simp [jsGet] at h
  | cons p rest ih =>
      obtain ⟨k0, u0⟩ := p
      simp only [List.map_cons, List.nodup_cons] at hnodup
      by_cases hk : k0 = k
      · subst hk
        simp [jsGet] at h
        subst h
        simp only [applyUpserts]
        rw [applyUpserts_preserve _ _ _ _ hnodup.1, jsGet_jsDelete_self]
      · simp only [jsGet, if_neg hk] at h
        cases u0 <;> simp only [applyUpserts] <;> exact ih _ hnodup.2 h

theorem buildProvidersCore_mem (decrypt : String → Except Unit String)
    (entries : List (String × ProviderCredential))
    (acc res : List (String × ResolvedProvider)) (k : String)
    (h : buildProvidersCore decrypt entries acc = .ok res) :
    jsMem res k = (entries.any (fun p => p.1 == k && p.2.enabled) || jsMem acc k) := by
  induction entries generalizing acc with
  | nil =>
      simp only [buildProvidersCore, Except.ok.injEq] at h
      subst h
      simp
  | cons p rest ih =>
      obtain ⟨pid, cred⟩ := p
      simp only [buildProvidersCore] at h
      by_cases he : cred.enabled
      · rw [if_pos he] at h
        cases hd : decrypt cred.encryptedKey with
        | error e => rw [hd] at h; exact absurd h (by simp)
        | ok key =>
            rw [hd] at h
            rw [ih _ h]
            rw [jsMem_jsSet]
            by_cases hk : pid = k
            · subst hk
              simp [he]
            · have hbk : (pid == k) = false := by simp [hk]
              simp [hk, hbk]
      · rw [if_neg he] at h
        rw [ih _ h]
        have : cred.enabled = false := by simpa using he
        simp [this]

theorem buildProvidersCustom_mem (decrypt : String → Except Unit String)
    (entries : List (String × CustomProviderCredential))
    (acc res : List (String × ResolvedProvider)) (k : String)
    (h : buildProvidersCustom decrypt entries acc = .ok res) :
    jsMem res k = (entries.any (fun p => p.1 == k && p.2.enabled) || jsMem acc k) := by
  induction entries generalizing acc with
  | nil =>
      simp only [buildProvidersCustom, Except.ok.injEq] at h
      subst h
      simp
  | cons p rest ih =>
      obtain ⟨pid, cred⟩ := p
      simp only [buildProvidersCustom] at h
      by_cases he : cred.enabled
      · rw [if_pos he] at h
        cases hd : decrypt cred.encryptedKey with
        | error e => rw [hd] at h; exact absurd h (by simp)
        | ok key =>
            rw [hd] at h
            rw [ih _ h]
            rw [jsMem_jsSet]
            by_cases hk : pid = k
            · subst hk
              simp [he]
            · have hbk : (pid == k) = false := by simp [hk]
              simp [hk, hbk]
      · rw [if_neg he] at h
        rw [ih _ h]
        have : cred.enabled = false := by simpa using he
        simp [this]

theorem resolveRegistry_providers_mem (catalog : List SharedModel)
    (settings : UserSettings) (decrypt : String → Except Unit String)
    (reg : Registry) (h : resolveRegistry catalog settings decrypt = .ok reg)
    (k : String) : jsMem reg.providers k = enabledKeyB settings k := by
  simp only [resolveRegistry] at h
  split at h
  · exact absurd h (by simp)
  next pc hc =>
    split at h
    · exact absurd h (by simp)
    next pv hcu =>
      simp only [Except.ok.injEq] at h
      subst h
      show jsMem pv k = enabledKeyB settings k
      rw [buildProvidersCustom_mem _ _ _ _ _ hcu,
          buildProvidersCore_mem _ _ _ _ _ hc]
      simp [enabledKeyB, jsMem, jsGet, Bool.or_comm]

theorem availableAdaptersLoop_eq (providers : List (String × ResolvedProvider))
    (l acc : List String) :
    availableAdaptersLoop providers l acc =
      acc ++ l.filter (fun a =>
        jsMem providers (providerSegment a) || startsWithI3 (providerSegment a)) := by
  induction l generalizing acc with
  | nil => simp [availableAdaptersLoop]
  | cons a rest ih =>
      by_cases h : (jsMem providers (providerSegment a)
                    || startsWithI3 (providerSegment a)) = true
      · simp only [availableAdaptersLoop, h, if_true]
        rw [ih]
        simp [List.filter_cons, h]
      · simp only [availableAdaptersLoop]
        rw [if_neg (by simp [h] : ¬ _), ih]
        simp only [Bool.not_eq_true] at h
        simp [List.filter_cons, h]

theorem availableAdapters_eq_filter (providers : List (String × ResolvedProvider))
    (adapters : List String) :
    availableAdapters providers adapters = adapters.filter (fun a =>
      jsMem providers (providerSegment a) || startsWithI3 (providerSegment a)) := by
  rw [availableAdapters, availableAdaptersLoop_eq]
  simp

theorem buildCatalogModels_preserve (providers : List (String × ResolvedProvider))
    (catalog : List SharedModel) (acc : List (String × EffectiveModel)) (k : String)
    (h : ∀ m ∈ catalog, m.id ≠ k) :
    jsGet (buildCatalogModels providers catalog acc) k = jsGet acc k := by
  revert h
  induction catalog generalizing acc with
  | nil =>
      intro h
      simp [buildCatalogModels]
  | cons m rest ih =>
      intro h
      simp only [buildCatalogModels]
      rw [ih _ (fun m' hm' => h m' (List.mem_cons_of_mem _ hm')),
          jsGet_jsSet_ne _ _ _ _ (h m (List.mem_cons_self _ _))]

theorem buildCatalogModels_lookup (providers : List (String × ResolvedProvider))
    (catalog : List SharedModel) (acc : List (String × EffectiveModel))
    (m : SharedModel) (hm : m ∈ catalog)
    (hnodup : (catalog.map SharedModel.id).Nodup) :
    jsGet (buildCatalogModels providers catalog acc) m.id =
      some (catalogEffective providers m) := by
  revert hm hnodup
  induction catalog generalizing acc with
  | nil =>
      intro hm _
      cases hm
  | cons m0 rest ih =>
      intro hm hnodup
      simp only [List.map_cons, List.nodup_cons] at hnodup
      rcases List.mem_cons.mp hm with h0 | h0
      · subst h0
        simp only [buildCatalogModels]
        rw [buildCatalogModels_preserve _ _ _ _
              (fun m' hm' hid => hnodup.1
                (by rw [← hid]; exact List.mem_map_of_mem SharedModel.id hm')),
            jsGet_jsSet_self]
      · simp only [buildCatalogModels]
        exact ih _ h0 hnodup.2

theorem jsMem_mono_jsSet {α : Type} (m : List (String × α)) (ks kl : String) (v : α)
    (h : jsMem m kl = true) : jsMem (jsSet m ks v) kl = true := by
  rw [jsMem_jsSet]
  by_cases hk : ks = kl <;> simp [hk, h]

theorem buildCatalogModels_mem_mono (providers : List (String × ResolvedProvider))
    (catalog : List SharedModel) (acc : List (String × EffectiveModel)) (k : String)
    (h : jsMem acc k = true) :
    jsMem (buildCatalogModels providers catalog acc) k = true := by
  induction catalog generalizing acc with
  | nil => simpa [buildCatalogModels] using h
  | cons m0 rest ih =>
      simp only [buildCatalogModels]
      exact ih _ (jsMem_mono_jsSet _ _ _ _ h)

theorem buildCatalogModels_mem (providers : List (String × ResolvedProvider))
    (catalog : List SharedModel) (acc : List (String × EffectiveModel))
    (m : SharedModel) (hm : m ∈ catalog) :
    jsMem (buildCatalogModels providers catalog acc) m.id = true := by
  revert hm
  induction catalog generalizing acc with
  | nil =>
      intro hm
      cases hm
  | cons m0 rest ih =>
      intro hm
      rcases List.mem_cons.mp hm with h0 | h0
      · subst h0
        simp only [buildCatalogModels]
        exact buildCatalogModels_mem_mono _ _ _ _
          (by simp [jsMem, jsGet_jsSet_self])
      · simp only [buildCatalogModels]
        exact ih _ h0

theorem applyCustomModelsRegistry_preserve (entries : List (String × CustomModel))
    (models : List (String × EffectiveModel)) (k : String)
    (h : ∀ p ∈ entries, p.2.enabled = true → p.1 ≠ k) :
    jsGet (applyCustomModelsRegistry entries models) k = jsGet models k := by
  revert h
  induction entries generalizing models with
  | nil =>
      intro h
      simp [applyCustomModelsRegistry]
  | cons p rest ih =>
      intro h
      obtain ⟨k0, m0⟩ := p
      simp only [applyCustomModelsRegistry]
      by_cases he : m0.enabled
      · rw [if_pos he,
            ih _ (fun p' hp' => h p' (List.mem_cons_of_mem _ hp')),
            jsGet_jsSet_ne _ _ _ _ (h (k0, m0) (List.mem_cons_self _ _) he)]
      · rw [if_neg he]
        exact ih _ (fun p' hp' => h p' (List.mem_cons_of_mem _ hp'))

theorem applyCustomModelsRegistry_mem_mono (entries : List (String × CustomModel))
    (models : List (String × EffectiveModel)) (k : String)
    (h : jsMem models k = true) :
    jsMem (applyCustomModelsRegistry entries models) k = true := by
  revert h
  induction entries generalizing models with
  | nil =>
      intro h
      simpa [applyCustomModelsRegistry] using h
  | cons p rest ih =>
      intro h
      obtain ⟨k0, m0⟩ := p
      simp only [applyCustomModelsRegistry]
      by_cases he : m0.enabled
      · rw [if_pos he]
        exact ih _ (jsMem_mono_jsSet _ _ _ _ h)
      · rw [if_neg he]
        exact ih _ h

theorem applyCustomModelsRegistry_lookup_enabled (entries : List (String × CustomModel))
    (models : List (String × EffectiveModel)) (k : String) (cm : CustomModel)
    (hnodup : (entries.map Prod.fst).Nodup)
    (h : jsGet entries k = some cm) (he : cm.enabled = true) :
    jsGet (applyCustomModelsRegistry entries models) k = some (customEffective cm) := by
  revert hnodup h
  induction entries generalizing models with
  | nil =>
      intro _ h
      simp [jsGet] at h
  | cons p rest ih =>
      intro hnodup h
      obtain ⟨k0, m0⟩ := p
      simp only [List.map_cons, List.nodup_cons] at hnodup
      by_cases hk : k0 = k
      · subst hk
        simp [jsGet] at h
        subst h
        simp only [applyCustomModelsRegistry]
        rw [if_pos he,
            applyCustomModelsRegistry_preserve _ _ _
              (fun p' hp' _ hk' => hnodup.1
                (by rw [← hk']; exact List.mem_map_of_mem Prod.fst hp')),
            jsGet_jsSet_self]
      · simp only [jsGet, if_neg hk] at h
        simp only [applyCustomModelsRegistry]
        by_cases he0 : m0.enabled
        · rw [if_pos he0]
          exact ih _ hnodup.2 h
        · rw [if_neg he0]
          exact ih _ hnodup.2 h

theorem applyCustomModelsRegistry_lookup_disabled (entries : List (String × CustomModel))
    (models : List (String × EffectiveModel)) (k : String) (cm : CustomModel)
    (hnodup : (entries.map Prod.fst).Nodup)
    (h : jsGet entries k = some cm) (he : cm.enabled = false) :
    jsGet (applyCustomModelsRegistry entries models) k = jsGet models k := by
  revert hnodup h
  induction entries generalizing models with
  | nil =>
      intro _ h
      simp [jsGet] at h
  | cons p rest ih =>
      intro hnodup h
      obtain ⟨k0, m0⟩ := p
      simp only [List.map_cons, List.nodup_cons] at hnodup
      by_cases hk : k0 = k
      · subst hk
        simp [jsGet] at h
        subst h
        simp only [applyCustomModelsRegistry]
        rw [if_neg (by simp [he])]
        exact applyCustomModelsRegistry_preserve _ _ _
          (fun p' hp' _ hk' => hnodup.1
            (by rw [← hk']; exact List.mem_map_of_mem Prod.fst hp'))
      · simp only [jsGet, if_neg hk] at h
        simp only [applyCustomModelsRegistry]
        by_cases he0 : m0.enabled
        · rw [if_pos he0, ih _ hnodup.2 h, jsGet_jsSet_ne _ _ _ _ hk]
        · rw [if_neg he0]
          exact ih _ hnodup.2 h

theorem applyFullCustom_preserve (settings : UserSettings) (encrypt : String → String)
    (us : List (String × CustomProviderArg))
    (acc res : List (String × CustomProviderCredential)) (k : String)
    (h : applyFullCustom settings encrypt acc us = .ok res)
    (hk : k ∉ us.map Prod.fst) :
    jsGet res k = jsGet acc k := by
  revert hk
  induction us generalizing acc with
  | nil =>
      intro _
      simp only [applyFullCustom, Except.ok.injEq] at h
      subst h
      rfl
  | cons p rest ih =>
      intro hk
      obtain ⟨pid, u⟩ := p
      simp only [List.map_cons, List.mem_cons] at hk
      push_neg at hk
      simp only [applyFullCustom] at h
      cases hek : fullCustomKey settings encrypt pid u with
      | error e =>
          rw [hek] at h
          exact absurd h (by simp)
      | ok key =>
          rw [hek] at h
          rw [ih _ h hk.2, jsGet_jsSet_ne _ _ _ _ (fun e => hk.1 e.symm)]

theorem applyFullCustom_lookup (settings : UserSettings) (encrypt : String → String)
    (us : List (String × CustomProviderArg))
    (acc res : List (String × CustomProviderCredential)) (k : String)
    (u : CustomProviderArg)
    (h : applyFullCustom settings encrypt acc us = .ok res)
    (hnodup : (us.map Prod.fst).Nodup)
    (hu : jsGet us k = some u) :
    ∃ key, fullCustomKey settings encrypt k u = .ok key
      ∧ jsGet res k = some { name := u.name, enabled := u.enabled
                             endpoint := u.endpoint, encryptedKey := key } := by
  revert hnodup hu
  induction us generalizing acc with
  | nil =>
      intro _ hu
      simp [jsGet] at hu
  | cons p rest ih =>
      intro hnodup hu
      obtain ⟨pid, u0⟩ := p
      simp only [List.map_cons, List.nodup_cons] at hnodup
      simp only [applyFullCustom] at h
      cases hek : fullCustomKey settings encrypt pid u0 with
      | error e =>
          rw [hek] at h
          exact absurd h (by simp)
      | ok key0 =>
          rw [hek] at h
          by_cases hk : pid = k
          · subst hk
            simp [jsGet] at hu
            subst hu
            refine ⟨key0, hek, ?_⟩
            rw [applyFullCustom_preserve _ _ _ _ _ _ h hnodup.1, jsGet_jsSet_self]
          · simp only [jsGet, if_neg hk] at hu
            exact ih _ h hnodup.2 hu

theorem updateUserSettings_ok_inv (uid : String) (store : Option UserSettings)
    (encrypt : String → String) (args : UpdateArgs) (ns : UserSettings)
    (h : updateUserSettings (some uid) store encrypt args = .ok (some ns)) :
    ns.coreAIProviders =
      applyRecordUpdates (coreStep (getSettings store args.userId) encrypt) []
        args.coreProviders
    ∧ applyFullCustom (getSettings store args.userId) encrypt []
        args.customProviders = .ok ns.customAIProviders := by
  simp only [updateUserSettings] at h
  split at h
  · exact absurd h (by simp)
  · split at h
    · exact absurd h (by simp)
    next custom hfc =>
      simp only [Except.ok.injEq, Option.some.injEq] at h
      subst h
      exact ⟨rfl, by rw [hfc]; rfl⟩

theorem applyUpserts_lookup {α β : Type} (f : String → α → β)
    (us : List (String × Option α)) (acc : List (String × β)) (k : String) (u : α)
    (hnodup : (us.map Prod.fst).Nodup) (h : jsGet us k = some (some u)) :
    jsGet (applyUpserts f acc us) k = some (f k u) := by
  induction us generalizing acc with
  | nil => simp [jsGet] at h
  | cons p rest ih =>
      obtain ⟨k0, u0⟩ := p
      simp only [List.map_cons, List.nodup_cons] at hnodup
      by_cases hk : k0 = k
      · subst hk
        simp [jsGet] at h
        subst h
        simp only [applyUpserts]
        rw [applyUpserts_preserve _ _ _ _ hnodup.1, jsGet_jsSet_self]
      · simp only [jsGet, if_neg hk] at h
        cases u0 <;> simp only [applyUpserts] <;> exact ih _ hnodup.2 h

/-- C7: for a fixed catalog and a fixed settings snapshot (and a fixed
decryption collaborator, assumed a deterministic function of the
ciphertext), two runs of the registry resolution produce identical outputs:
the computation is a pure function of its inputs. -/
theorem c7_resolve_deterministic (catalog : List SharedModel)
    (settings : UserSettings) (decrypt : String → Except Unit String)
    (r1 r2 : Except Unit Registry)
    (h1 : resolveRegistry catalog settings decrypt = r1)
    (h2 : resolveRegistry catalog settings decrypt = r2) : r1 = r2 := by
  rw [← h1, ← h2]

theorem c7_resolve_deterministic_witness :
    resolveRegistry MODELS_SHARED (DefaultSettings "u") decryptOk =
      resolveRegistry MODELS_SHARED (DefaultSettings "u") decryptOk :=
  c7_resolve_deterministic MODELS_SHARED (DefaultSettings "u") decryptOk _ _ rfl rfl

/-- C10: the full update fails with the unauthorized error and writes
nothing when the caller has no resolved identity or when the identity
differs from the target userId; the partial update rejects a caller with no
resolved identity the same way. -/
theorem c10_authorization (store : Option UserSettings) (encrypt : String → String) :
    (∀ args : UpdateArgs,
       updateUserSettings none store encrypt args = .error .unauthorized
       ∧ storeAfter store (updateUserSettings none store encrypt args) = store)
    ∧ (∀ (uid : String) (args : UpdateArgs), uid ≠ args.userId →
       updateUserSettings (some uid) store encrypt args = .error .unauthorized
       ∧ storeAfter store (updateUserSettings (some uid) store encrypt args) = store)
    ∧ (∀ args : PartialArgs,
       updateUserSettingsPartialFn none store encrypt args = .error .unauthorized
       ∧ storeAfter store (updateUserSettingsPartialFn none store encrypt args) = store) := by
  refine ⟨fun args => ⟨rfl, rfl⟩, fun uid args h => ?_, fun args => ⟨rfl, rfl⟩⟩
  constructor
  · simp [updateUserSettings, h]
  · simp [updateUserSettings, storeAfter, h]

theorem c10_authorization_witness :
    updateUserSettings none exStoreC5 exEncrypt exArgsC5core = .error .unauthorized
    ∧ updateUserSettings (some "alice") exStoreC5 exEncrypt exArgsC5core =
        .error .unauthorized
    ∧ updateUserSettingsPartialFn none exStoreC5 exEncrypt {} = .error .unauthorized :=
  ⟨((c10_authorization exStoreC5 exEncrypt).1 exArgsC5core).1,
   ((c10_authorization exStoreC5 exEncrypt).2.1 "alice" exArgsC5core (by decide)).1,
   ((c10_authorization exStoreC5 exEncrypt).2.2 {}).1⟩

/-- C5: the full update is not total: a custom-provider entry whose id is
absent from the stored customAIProviders map and which supplies no newKey
makes the handler throw the runtime TypeError before any write, leaving the
store unchanged, while the analogous core-provider request succeeds and
stores an empty encryptedKey. -/
theorem c5_full_update_custom_missing_entry_throws :
    updateUserSettings (some "u") exStoreC5 exEncrypt exArgsC5custom =
      .error .typeErrorUndefined
    ∧ storeAfter exStoreC5
        (updateUserSettings (some "u") exStoreC5 exEncrypt exArgsC5custom) = exStoreC5
    ∧ ∃ ns, updateUserSettings (some "u") exStoreC5 exEncrypt exArgsC5core = .ok (some ns)
        ∧ jsGet ns.coreAIProviders "p" = some { enabled := true, encryptedKey := "" } :=
  ⟨rfl, rfl, ⟨_, rfl, rfl⟩⟩

/-- C2 counterexample: the registry resolution does not catch a decryption
failure; with an enabled stored credential and a failing decryptKey the
whole query fails instead of degrading to "no usable key". -/
theorem c2_registry_decrypt_propagates_counterexample :
    getUserRegistryInternal (some exSettingsC2) "u" decryptFailAll = .error () := rfl

/-- C2 amended: a decryptKey failure is caught and converted to a null
result in the general-provider key queries (getSupermemoryKey and
getDecryptedGeneralProviderKey), but not in getUserRegistryInternal, where
a failure on an enabled provider's stored key propagates to the caller as a
hard failure. -/
theorem c2_decrypt_failure_handling_amended :
    (∀ (store : Option UserSettings) (uid : String)
       (decrypt : String → Except Unit String) (cfg : GeneralProviderConfig),
       jsGet (getSettings store uid).generalProviders "supermemory" = some cfg →
       cfg.enabled = true → cfg.encryptedKey ≠ "" →
       decrypt cfg.encryptedKey = .error () →
       getSupermemoryKey store uid decrypt = none)
    ∧ (∀ (store : Option UserSettings) (pid uid : String)
         (decrypt : String → Except Unit String) (cfg : GeneralProviderConfig),
       jsGet (getSettings store uid).generalProviders pid = some cfg →
       cfg.enabled = true → cfg.encryptedKey ≠ "" →
       decrypt cfg.encryptedKey = .error () →
       getDecryptedGeneralProviderKey store pid uid decrypt = none)
    ∧ (∀ (store : Option UserSettings) (uid pid ct : String)
         (decrypt : String → Except Unit String),
       (getSettings store uid).coreAIProviders =
         [(pid, { enabled := true, encryptedKey := ct })] →
       decrypt ct = .error () →
       getUserRegistryInternal store uid decrypt = .error ()) := by
  refine ⟨?_, ?_, ?_⟩
  · intro store uid decrypt cfg hget he hk hd
    have hbk : (cfg.encryptedKey == "") = false := by simp [hk]
    simp [getSupermemoryKey, hget, he, hbk, hd]
  · intro store pid uid decrypt cfg hget he hk hd
    have hbk : (cfg.encryptedKey == "") = false := by simp [hk]
    simp [getDecryptedGeneralProviderKey, hget, he, hbk, hd]
  · intro store uid pid ct decrypt hcore hd
    simp [getUserRegistryInternal, resolveRegistry, buildProvidersCore, hcore, hd]

theorem c2_decrypt_failure_handling_amended_witness :
    getSupermemoryKey
      (some { DefaultSettings "u" with
              generalProviders := [("supermemory", { enabled := true, encryptedKey := "CT" })] })
      "u" decryptFailAll = none
    ∧ getDecryptedGeneralProviderKey
        (some { DefaultSettings "u" with
                generalProviders := [("tavily", { enabled := true, encryptedKey := "CT" })] })
        "tavily" "u" decryptFailAll = none
    ∧ getUserRegistryInternal (some exSettingsC2) "u" decryptFailAll = .error () :=
  ⟨c2_decrypt_failure_handling_amended.1 _ "u" decryptFailAll _ rfl rfl (by decide) rfl,
   c2_decrypt_failure_handling_amended.2.1 _ "tavily" "u" decryptFailAll _ rfl rfl
     (by decide) rfl,
   c2_decrypt_failure_handling_amended.2.2 _ "u" "openai" "CT" decryptFailAll rfl rfl⟩

/-- C9 counterexample: with a blank non-internal key and an unrecognized
provider id, the factory raises the configuration error, not the
unknown-provider error: the blank-key check precedes the provider switch. -/
theorem c9_blank_key_precedence_counterexample :
    createProvider "doesnotexist" "" envEmpty = .error .configurationError
    ∧ createProvider "doesnotexist" "" envEmpty ≠
        .error (.unknownProvider "doesnotexist") :=
  ⟨rfl, fun h => CreateProviderError.noConfusion (Except.error.inj h)⟩

/-- C9 amended: for every recognized provider id the factory fails with the
configuration error exactly when the key is non-internal and blank, and
with the internal sentinel it always constructs a client even when every
environment variable is unset; an unrecognized provider id fails with the
unknown-provider error provided the key passes the blank-key check (a blank
non-internal key raises the configuration error first). -/
theorem c9_create_provider_amended (pid apiKey : String) (env : Env) :
    (pid ∈ recognizedProviders →
       ((createProvider pid apiKey env = .error .configurationError) ↔
          (apiKey ≠ "internal" ∧ isBlank apiKey = true)))
    ∧ (pid ∈ recognizedProviders →
       ∃ c, createProvider pid "internal" env = .ok c)
    ∧ (pid ∉ recognizedProviders →
       (apiKey = "internal" ∨ isBlank apiKey = false) →
       createProvider pid apiKey env = .error (.unknownProvider pid)) := by
  refine ⟨?_, ?_, ?_⟩
  · intro hmem
    constructor
    · intro h
      by_cases hint : apiKey = "internal"
      · exfalso
        subst hint
        simp only [createProvider] at h
        rw [if_neg (by simp)] at h
        fin_cases hmem <;> simp at h
      · by_cases hblank : isBlank apiKey = true
        · exact ⟨hint, hblank⟩
        · exfalso
          have hke : apiKey ≠ "" := fun e => hblank (by rw [e]; rfl)
          simp only [createProvider] at h
          rw [if_neg (fun hcond => hcond.2.elim hke hblank)] at h
          fin_cases hmem <;> simp at h
    · rintro ⟨hint, hblank⟩
      simp only [createProvider]
      rw [if_pos ⟨hint, Or.inr hblank⟩]
  · intro hmem
    fin_cases hmem <;> exact ⟨_, rfl⟩
  · intro hmem hvalid
    simp only [recognizedProviders, List.mem_cons, List.not_mem_nil, or_false] at hmem
    push_neg at hmem
    obtain ⟨h1, h2, h3, h4, h5, h6⟩ := hmem
    have hcond : ¬ (apiKey ≠ "internal" ∧ (apiKey = "" ∨ isBlank apiKey = true)) := by
      rintro ⟨hni, hbl⟩
      rcases hvalid with hv | hv
      · exact hni hv
      · rcases hbl with hb | hb
        · rw [hb] at hv
          exact absurd hv (by decide)
        · rw [hb] at hv
          cases hv
    simp only [createProvider]
    rw [if_neg hcond, if_neg h1, if_neg h2, if_neg h3, if_neg h4, if_neg h5, if_neg h6]

theorem c9_create_provider_amended_witness :
    (("anthropic" ∈ recognizedProviders)
      ∧ ∃ c, createProvider "anthropic" "internal" envEmpty = .ok c)
    ∧ ((createProvider "openai" " " envEmpty = .error .configurationError) ↔
         (" " ≠ "internal" ∧ isBlank " " = true))
    ∧ (("nope" ∉ recognizedProviders)
        ∧ createProvider "nope" "k" envEmpty = .error (.unknownProvider "nope")) :=
  ⟨⟨by decide, (c9_create_provider_amended "anthropic" "x" envEmpty).2.1 (by decide)⟩,
   (c9_create_provider_amended "openai" " " envEmpty).1 (by decide),
   ⟨by decide,
    (c9_create_provider_amended "nope" "k" envEmpty).2.2 (by decide)
      (Or.inr (by decide))⟩⟩

/-- C1 counterexample: with five stored themes, the dedicated addTheme
mutation throws the maximum-themes error for a sixth distinct URL instead
of silently no-opping. -/
theorem c1_addTheme_cap_throws_counterexample :
    addUserTheme (some "u") (some exSettingsC1) "t6" = .error .maxThemes := rfl

/-- C1 amended: adding a duplicate URL is a silent no-op for the dedicated
addTheme mutation, and with five stored themes a sixth distinct URL makes
that mutation throw the maximum-themes error; the addTheme field of the
partial update leaves the theme list unchanged (as a silent no-op) both at
the cap and for a duplicate URL. -/
theorem c1_theme_cap_and_duplicate_amended (uid url : String)
    (store : Option UserSettings) (encrypt : String → String) :
    (url ∈ (getSettings store uid).customThemes →
       addUserTheme (some uid) store url = .ok store)
    ∧ (url ∉ (getSettings store uid).customThemes →
       5 ≤ (getSettings store uid).customThemes.length →
       addUserTheme (some uid) store url = .error .maxThemes)
    ∧ ((url ∈ (getSettings store uid).customThemes
          ∨ 5 ≤ (getSettings store uid).customThemes.length) →
       ∃ ns, updateUserSettingsPartialFn (some uid) store encrypt
               { addTheme := some url } = .ok (some ns)
         ∧ ns.customThemes = (getSettings store uid).customThemes) := by
  refine ⟨?_, ?_, ?_⟩
  · intro h
    simp [addUserTheme, h]
  · intro h1 h2
    simp [addUserTheme, h1, h2]
  · intro hcond
    refine ⟨_, rfl, ?_⟩
    rcases hcond with hm | hl
    · simp [jsTruthy, hm]
    · have hnl : ¬ ((getSettings store uid).customThemes.length < 5) := by omega
      simp [jsTruthy, hnl]

theorem c1_theme_cap_and_duplicate_amended_witness :
    ("t1" ∈ (getSettings (some exSettingsC1) "u").customThemes
      ∧ addUserTheme (some "u") (some exSettingsC1) "t1" = .ok (some exSettingsC1))
    ∧ ("t6" ∉ (getSettings (some exSettingsC1) "u").customThemes
      ∧ 5 ≤ (getSettings (some exSettingsC1) "u").customThemes.length
      ∧ addUserTheme (some "u") (some exSettingsC1) "t6" = .error .maxThemes)
    ∧ (∃ ns, updateUserSettingsPartialFn (some "u") (some exSettingsC1) exEncrypt
               { addTheme := some "t6" } = .ok (some ns)
         ∧ ns.customThemes = (getSettings (some exSettingsC1) "u").customThemes) :=
  ⟨⟨by decide,
    (c1_theme_cap_and_duplicate_amended "u" "t1" (some exSettingsC1) exEncrypt).1
      (by decide)⟩,
   ⟨by decide, by decide,
    (c1_theme_cap_and_duplicate_amended "u" "t6" (some exSettingsC1) exEncrypt).2.1
      (by decide) (by decide)⟩,
   (c1_theme_cap_and_duplicate_amended "u" "t6" (some exSettingsC1) exEncrypt).2.2
     (Or.inr (by decide))⟩

/-- C8: in the partial update, a null value under a key of
customProviderUpdates removes that key from the persisted
customAIProviders map, so a subsequent full-settings read no longer
contains it; the same null-means-delete rule holds for customModelUpdates
and the customModels map. -/
theorem c8_null_deletes (uid : String) (store : Option UserSettings)
    (encrypt : String → String) (args : PartialArgs) (k : String) :
    (∀ us ns, args.customProviderUpdates = some us →
       (us.map Prod.fst).Nodup → jsGet us k = some none →
       updateUserSettingsPartialFn (some uid) store encrypt args = .ok (some ns) →
       jsGet (getSettings (some ns) uid).customAIProviders k = none)
    ∧ (∀ us ns, args.customModelUpdates = some us →
       (us.map Prod.fst).Nodup → jsGet us k = some none →
       updateUserSettingsPartialFn (some uid) store encrypt args = .ok (some ns) →
       jsGet (getSettings (some ns) uid).customModels k = none) := by
  constructor
  · intro us ns hu hnodup hk hok
    simp only [updateUserSettingsPartialFn, Except.ok.injEq, Option.some.injEq] at hok
    show jsGet ns.customAIProviders k = none
    rw [← hok]
    simp only [hu]
    exact applyUpserts_del _ _ _ _ hnodup hk
  · intro us ns hu hnodup hk hok
    simp only [updateUserSettingsPartialFn, Except.ok.injEq, Option.some.injEq] at hok
    show jsGet ns.customModels k = none
    rw [← hok]
    simp only [hu]
    exact applyUpserts_del _ _ _ _ hnodup hk

theorem c8_null_deletes_witness :
    ∃ ns, updateUserSettingsPartialFn (some "u") exStoreC8 exEncrypt exArgsC8 =
            .ok (some ns)
      ∧ jsGet (getSettings (some ns) "u").customAIProviders "cp" = none
      ∧ jsGet (getSettings (some ns) "u").customModels "cm" = none :=
  ⟨_, rfl,
   (c8_null_deletes "u" exStoreC8 exEncrypt exArgsC8 "cp").1 _ _ rfl (by decide) rfl rfl,
   (c8_null_deletes "u" exStoreC8 exEncrypt exArgsC8 "cm").2 _ _ rfl (by decide) rfl rfl⟩

/-- C4 counterexample: an entry that does supply a newKey, namely the empty
string, does not get its encryption stored; the empty string is falsy, so
the stored ciphertext is carried forward instead of exEncrypt "". -/
theorem c4_empty_newKey_counterexample :
    (∃ ns, updateUserSettings (some "u") exStoreC4 exEncrypt exArgsC4 = .ok (some ns)
       ∧ jsGet ns.coreAIProviders "openai" =
           some { enabled := true, encryptedKey := "OLD" })
    ∧ exEncrypt "" ≠ "OLD" :=
  ⟨⟨_, rfl, rfl⟩, by decide⟩

/-- C4 amended: in the full update, a core or custom provider entry whose
newKey is absent or the empty string has the previously stored encryptedKey
of that provider id carried forward unchanged; an entry supplying a
non-empty newKey gets its encryption stored instead. -/
theorem c4_carry_forward_amended (uid : String) (store : Option UserSettings)
    (encrypt : String → String) (args : UpdateArgs) (ns : UserSettings)
    (hok : updateUserSettings (some uid) store encrypt args = .ok (some ns)) :
    (∀ pid u, (args.coreProviders.map Prod.fst).Nodup →
       jsGet args.coreProviders pid = some u →
       ((∀ c, (u.newKey = none ∨ u.newKey = some "") →
           jsGet (getSettings store args.userId).coreAIProviders pid = some c →
           jsGet ns.coreAIProviders pid =
             some { enabled := u.enabled, encryptedKey := c.encryptedKey })
        ∧ (∀ key, u.newKey = some key → key ≠ "" →
           jsGet ns.coreAIProviders pid =
             some { enabled := u.enabled, encryptedKey := encrypt key })))
    ∧ (∀ pid u, (args.customProviders.map Prod.fst).Nodup →
       jsGet args.customProviders pid = some u →
       ((∀ c, (u.newKey = none ∨ u.newKey = some "") →
           jsGet (getSettings store args.userId).customAIProviders pid = some c →
           jsGet ns.customAIProviders pid =
             some { name := u.name, enabled := u.enabled, endpoint := u.endpoint
                    encryptedKey := c.encryptedKey })
        ∧ (∀ key, u.newKey = some key → key ≠ "" →
           jsGet ns.customAIProviders pid =
             some { name := u.name, enabled := u.enabled, endpoint := u.endpoint
                    encryptedKey := encrypt key }))) := by
  obtain ⟨hcore, hcustom⟩ := updateUserSettings_ok_inv _ _ _ _ _ hok
  constructor
  · intro pid u hnodup hget
    have hlk := applyRecordUpdates_lookup
      (coreStep (getSettings store args.userId) encrypt) _ [] _ _ hnodup hget
    rw [← hcore] at hlk
    constructor
    · intro c hnk hstored
      rw [hlk]
      have htr : jsTruthy u.newKey = false := by
        rcases hnk with h | h <;> simp [jsTruthy, h]
      simp [coreStep, htr, hstored]
    · intro key hnk hne
      rw [hlk]
      have htr : jsTruthy (some key) = true := by simp [jsTruthy, hne]
      simp [coreStep, hnk, htr]
  · intro pid u hnodup hget
    obtain ⟨key0, hkey0, hlk⟩ := applyFullCustom_lookup
      (getSettings store args.userId) encrypt _ [] _ _ _ hcustom hnodup hget
    constructor
    · intro c hnk hstored
      rw [hlk]
      have htr : jsTruthy u.newKey = false := by
        rcases hnk with h | h <;> simp [jsTruthy, h]
      rw [fullCustomKey, if_neg (by simp [htr]), hstored] at hkey0
      simp only [Except.ok.injEq] at hkey0
      rw [hkey0]
    · intro key hnk hne
      rw [hlk]
      have htr : jsTruthy u.newKey = true := by simp [jsTruthy, hnk, hne]
      rw [fullCustomKey, if_pos (by simp [htr])] at hkey0
      simp only [Except.ok.injEq] at hkey0
      rw [← hkey0, hnk]
      rfl

theorem c4_carry_forward_amended_witness :
    ∃ ns, updateUserSettings (some "u") exStoreC4w exEncrypt exArgsC4w = .ok (some ns)
      ∧ jsGet ns.coreAIProviders "openai" =
          some { enabled := true, encryptedKey := "COLD" }
      ∧ jsGet ns.customAIProviders "cp" =
          some { name := "CP2", enabled := false, endpoint := "https://new"
                 encryptedKey := "XOLD" } :=
  ⟨_, rfl,
   (((c4_carry_forward_amended "u" exStoreC4w exEncrypt exArgsC4w _ rfl).1
       "openai" _ (by decide) rfl).1 _ (Or.inl rfl) rfl),
   (((c4_carry_forward_amended "u" exStoreC4w exEncrypt exArgsC4w _ rfl).2
       "cp" _ (by decide) rfl).1 _ (Or.inl rfl) rfl)⟩

theorem resolveRegistry_ok_inv (catalog : List SharedModel) (settings : UserSettings)
    (decrypt : String → Except Unit String) (reg : Registry)
    (h : resolveRegistry catalog settings decrypt = .ok reg) :
    ∃ pc, buildProvidersCore decrypt settings.coreAIProviders [] = .ok pc
      ∧ ∃ pv, buildProvidersCustom decrypt settings.customAIProviders pc = .ok pv
        ∧ reg = { providers := pv
                  models := applyCustomModelsRegistry settings.customModels
                              (buildCatalogModels pv catalog [])
                  settings := settings } := by
  simp only [resolveRegistry] at h
  split at h
  · exact absurd h (by simp)
  next pc hc =>
    split at h
    · exact absurd h (by simp)
    next pv hcu =>
      simp only [Except.ok.injEq] at h
      exact ⟨pc, hc, pv, hcu, h.symm⟩

/-- C3: for a catalog model (whose id is not shadowed by another catalog
entry or an enabled custom model), the resolver's entry carries exactly the
order-preserving subsequence of the model's adapters whose provider segment
is a key of the enabled-credentials map or carries the internal prefix;
disabled credentials contribute no key, internal-prefixed adapters pass
regardless of the settings. -/
theorem c3_available_adapters_filter (catalog : List SharedModel)
    (settings : UserSettings) (decrypt : String → Except Unit String)
    (reg : Registry) (m : SharedModel)
    (hreg : resolveRegistry catalog settings decrypt = .ok reg)
    (hm : m ∈ catalog)
    (hnodup : (catalog.map SharedModel.id).Nodup)
    (hcust : ∀ p ∈ settings.customModels, p.2.enabled = true → p.1 ≠ m.id) :
    ∃ em, jsGet reg.models m.id = some em
      ∧ em.adapters = m.adapters.filter (fun a =>
          enabledKeyB settings (providerSegment a)
          || startsWithI3 (providerSegment a)) := by
  obtain ⟨pc, hc, pv, hcu, hr⟩ := resolveRegistry_ok_inv _ _ _ _ hreg
  refine ⟨catalogEffective pv m, ?_, ?_⟩
  · rw [hr]
    show jsGet (applyCustomModelsRegistry settings.customModels
                  (buildCatalogModels pv catalog [])) m.id = _
    rw [applyCustomModelsRegistry_preserve _ _ _ hcust,
        buildCatalogModels_lookup _ _ _ _ hm hnodup]
  · show availableAdapters pv m.adapters = _
    rw [availableAdapters_eq_filter]
    apply List.filter_congr
    intro a _
    have hpv : jsMem pv (providerSegment a) =
        enabledKeyB settings (providerSegment a) := by
      have hx := resolveRegistry_providers_mem catalog settings decrypt reg hreg
        (providerSegment a)
      rw [hr] at hx
      exact hx
    rw [hpv]

theorem c3_available_adapters_filter_witness :
    ∃ reg, resolveRegistry exCatalogGpt4o exSettingsC3 decryptOk = .ok reg
      ∧ ∃ em, jsGet reg.models "gpt-4o" = some em
          ∧ em.adapters = ["openai:gpt-4o"] := by
  refine ⟨_, rfl, ?_⟩
  obtain ⟨em, h1, h2⟩ := c3_available_adapters_filter exCatalogGpt4o exSettingsC3
    decryptOk _ exModelGpt4o rfl (by decide)
    (by decide) (by intro p hp; simp [exSettingsC3, DefaultSettings] at hp)
  exact ⟨em, h1, by rw [h2]; rfl⟩

/-- C6: the resolver's models map holds one entry per catalog model id
(even when its available adapters are empty), plus one entry per enabled
custom model whose adapter list is exactly the single providerId:modelId
adapter, written after the catalog pass so that it overrides a catalog
entry of the same key; a disabled custom model produces no entry. -/
theorem c6_models_map (catalog : List SharedModel) (settings : UserSettings)
    (decrypt : String → Except Unit String) (reg : Registry)
    (hreg : resolveRegistry catalog settings decrypt = .ok reg) :
    (∀ m ∈ catalog, jsMem reg.models m.id = true)
    ∧ (∀ k cm, (settings.customModels.map Prod.fst).Nodup →
         jsGet settings.customModels k = some cm → cm.enabled = true →
         jsGet reg.models k = some (customEffective cm)
           ∧ (customEffective cm).adapters = [cm.providerId ++ ":" ++ cm.modelId])
    ∧ (∀ k cm, (settings.customModels.map Prod.fst).Nodup →
         jsGet settings.customModels k = some cm → cm.enabled = false →
         (∀ m ∈ catalog, m.id ≠ k) →
         jsGet reg.models k = none) := by
  obtain ⟨pc, hc, pv, hcu, hr⟩ := resolveRegistry_ok_inv _ _ _ _ hreg
  subst hr
  refine ⟨?_, ?_, ?_⟩
  · intro m hm
    exact applyCustomModelsRegistry_mem_mono _ _ _
      (buildCatalogModels_mem _ _ _ _ hm)
  · intro k cm hnodup hget he
    exact ⟨applyCustomModelsRegistry_lookup_enabled _ _ _ _ hnodup hget he, rfl⟩
  · intro k cm hnodup hget he hcat
    show jsGet (applyCustomModelsRegistry settings.customModels
                  (buildCatalogModels pv catalog [])) k = none
    rw [applyCustomModelsRegistry_lookup_disabled _ _ _ _ hnodup hget he,
        buildCatalogModels_preserve _ _ _ _ hcat]
    rfl

theorem c6_models_map_witness :
    ∃ reg, resolveRegistry exCatalogGpt4o exSettingsC6 decryptOk = .ok reg
      ∧ jsMem reg.models "gpt-4o" = true
      ∧ (∃ em, jsGet reg.models "mycm" = some em ∧ em.adapters = ["cp:mid"])
      ∧ jsGet reg.models "dead" = none := by
  refine ⟨_, rfl, ?_, ?_, ?_⟩
  · exact (c6_models_map exCatalogGpt4o exSettingsC6 decryptOk _ rfl).1
      exModelGpt4o (by decide)
  · obtain ⟨h1, _⟩ := (c6_models_map exCatalogGpt4o exSettingsC6 decryptOk _ rfl).2.1
      "mycm" _ (by decide) rfl rfl
    exact ⟨_, h1, rfl⟩
  · exact (c6_models_map exCatalogGpt4o exSettingsC6 decryptOk _ rfl).2.2
      "dead" _ (by decide) rfl rfl (by decide)

end Intern3
